import Mathlib

/-!
Verification of the meeting-room booking backend (Express + Prisma).

The embedding below mirrors, over `List`-valued stores and `Int` timestamps:
  * `BookingService.createBookingSafe` (raw-SQL overlap check + insert),
  * `BookingService.getActiveBookings`,
  * `BookingService.softDeleteBooking`,
  * `BookingService.checkRoomAvailability`,
  * `BookingService.getBookingById`,
  * the `POST /bookings` and `DELETE /bookings/:id` routes,
  * the `GET /rooms/available` route.
JavaScript truthiness of optional numeric parameters (`0` is falsy) is
modelled explicitly wherever the code relies on it.
-/

namespace MeetingBooking

/-- A row of the `bookings` table: `deletedAt = none` means the booking is
active; a non-`none` value is the soft-delete (cancellation) timestamp. -/
structure Booking where
  id : Int
  userId : Int
  roomId : Int
  startTime : Int
  endTime : Int
  deletedAt : Option Int
  description : Option String
deriving DecidableEq, Repr

/-- A row of the `rooms` table (only the fields the available-rooms route
inspects). -/
structure Room where
  id : Int
  name : String
  capacity : Int
deriving DecidableEq, Repr

/-- The authenticated caller as seen by the routes (`req.user`). -/
structure User where
  id : Int
  role : String
deriving DecidableEq, Repr

/-- The three-clause overlap disjunction from the raw SQL in
`BookingService.createBookingSafe`, identical to the Prisma `where` clause in
`checkRoomAvailability`.  `(aStart, aEnd)` is the stored row's interval and
`(bStart, bEnd)` the candidate interval. -/
def sqlConflict (aStart aEnd bStart bEnd : Int) : Prop :=
  (aStart ≤ bStart ∧ aEnd > bStart) ∨
  (aStart < bEnd ∧ aEnd ≥ bEnd) ∨
  (aStart ≥ bStart ∧ aEnd ≤ bEnd)

instance (aS aE bS bE : Int) : Decidable (sqlConflict aS aE bS bE) := by
  unfold sqlConflict; infer_instance

/-- The spec's half-open conflict predicate, modelled from the spec wording:
two intervals conflict iff `a.start < b.end AND b.start < a.end`. -/
def overlapSpec (aStart aEnd bStart bEnd : Int) : Prop :=
  aStart < bEnd ∧ bStart < aEnd

instance (aS aE bS bE : Int) : Decidable (overlapSpec aS aE bS bE) := by
  unfold overlapSpec; infer_instance

/-- The `SELECT id FROM bookings WHERE room_id = … AND deleted_at IS NULL AND
(three-clause disjunction) FOR UPDATE` query of `createBookingSafe`. -/
def overlappingBookings (store : List Booking) (roomId s e : Int) : List Booking :=
  store.filter fun b =>
    decide (b.roomId = roomId ∧ b.deletedAt = none ∧ sqlConflict b.startTime b.endTime s e)

/-- Model of `BookingService.createBookingSafe`: inside one transaction, run the raw
overlap query; if any row comes back, throw; otherwise insert the new booking
(with `deletedAt` defaulted to null).  `newId` is the id the store's
autoincrement sequence assigns to the inserted row. -/
def createBookingSafe (store : List Booking) (newId userId roomId startTime endTime : Int)
    (description : Option String) : Except String (Booking × List Booking) :=
  if (overlappingBookings store roomId startTime endTime).length > 0 then
    .error "Room is already booked for this time period"
  else
    let booking : Booking := ⟨newId, userId, roomId, startTime, endTime, none, description⟩
    .ok (booking, store ++ [booking])

/-- The `where` filter of `BookingService.getActiveBookings`: the spread
`...(userId && { userId })` adds the owner filter only when `userId` is
truthy, so `0` (and `undefined`) leave the filter off. -/
def activeFilter (userId : Option Int) (b : Booking) : Bool :=
  b.deletedAt == none &&
    match userId with
    | some u => u == 0 || b.userId == u
    | none => true

/-- Model of `BookingService.getActiveBookings`: filter by `deletedAt: null` (and,
when truthy, by `userId`), ordered by `startTime` ascending. -/
def getActiveBookings (store : List Booking) (userId : Option Int) : List Booking :=
  (store.filter (activeFilter userId)).mergeSort fun a b => decide (a.startTime ≤ b.startTime)

/-- Route `GET /bookings`: admins list all active bookings, everyone else only
their own. -/
def getBookingsRoute (store : List Booking) (user : User) : List Booking :=
  if user.role = "admin" then getActiveBookings store none
  else getActiveBookings store (some user.id)

/-- Model of `BookingService.getBookingById`: `findFirst` on id with `deletedAt: null`. -/
def getBookingById (store : List Booking) (bookingId : Int) : Option Booking :=
  store.find? fun b => decide (b.id = bookingId ∧ b.deletedAt = none)

/-- Model of `BookingService.softDeleteBooking`: look the booking up (ignoring the
owner filter when the actor argument is the sentinel `0`), throw when absent
or already soft-deleted, otherwise set `deletedAt` on the row with that id. -/
def softDeleteBooking (store : List Booking) (bookingId userId now : Int) :
    Except String (Booking × List Booking) :=
  let booking? :=
    if userId = 0 then
      store.find? fun b => decide (b.id = bookingId ∧ b.deletedAt = none)
    else
      store.find? fun b => decide (b.id = bookingId ∧ b.userId = userId ∧ b.deletedAt = none)
  match booking? with
  | none => .error "Booking not found or already cancelled"
  | some b =>
      .ok ({ b with deletedAt := some now },
           store.map fun x => if x.id = bookingId then { x with deletedAt := some now } else x)

/-- The exclusion filter of `checkRoomAvailability`: the spread
`...(excludeBookingId && { id: { not: excludeBookingId } })` applies the
exclusion only when `excludeBookingId` is truthy, so `0` disables it. -/
def excludeFilter (excludeBookingId : Option Int) (b : Booking) : Bool :=
  match excludeBookingId with
  | some ex => ex == 0 || b.id != ex
  | none => true

/-- Model of `BookingService.checkRoomAvailability`: count the active bookings of the
room whose intervals satisfy the three-clause disjunction (optionally
excluding one id) and report availability as `count = 0`. -/
def checkRoomAvailability (store : List Booking) (roomId s e : Int)
    (excludeBookingId : Option Int) : Bool :=
  let conflicting := store.filter fun b =>
    decide (b.roomId = roomId ∧ b.deletedAt = none ∧ sqlConflict b.startTime b.endTime s e)
      && excludeFilter excludeBookingId b
  conflicting.length == 0

/-- Result of the `POST /bookings` route. -/
inductive CreateResult
  | created (b : Booking)
  | badRequest (msg : String)
  | forbidden (msg : String)
  | conflict409 (msg : String)
  | serverError
deriving DecidableEq, Repr

/-- JavaScript truthiness of an optional numeric request field: absent and
`0` are both falsy. -/
def truthy (o : Option Int) : Bool :=
  match o with
  | none => false
  | some v => v != 0

/-- Route `POST /bookings`: validate field presence, resolve the booking owner
(`user_id || currentUser.id`), enforce the admin-only booking-for-others
rule, call `createBookingSafe`, and map the overlap error to HTTP 409. -/
def postBookingRoute (store : List Booking) (newId : Int)
    (room_id user_id start_time end_time : Option Int) (description : Option String)
    (currentUser : User) : CreateResult × List Booking :=
  if !truthy room_id || !truthy start_time || !truthy end_time then
    (.badRequest "room_id, start_time, and end_time are required", store)
  else
    let bookingUserId := if truthy user_id then user_id.getD 0 else currentUser.id
    if truthy user_id && user_id.getD 0 != currentUser.id && currentUser.role != "admin" then
      (.forbidden "Only admin can create bookings for other users", store)
    else
      match createBookingSafe store newId bookingUserId (room_id.getD 0)
          (start_time.getD 0) (end_time.getD 0) description with
      | .ok (b, store') => (.created b, store')
      | .error msg =>
          if msg = "Room is already booked for this time period" then
            (.conflict409 "Room is already booked for this time period", store)
          else (.serverError, store)

/-- Result of the `DELETE /bookings/:id` route. -/
inductive DeleteResult
  | ok200 (b : Booking)
  | badRequest400 (msg : String)
  | forbidden403
  | notFound404
  | serverError500
deriving DecidableEq, Repr

/-- The actor argument the `DELETE /bookings/:id` route hands to
`softDeleteBooking`: `user.role === 'admin' ? 0 : user.id`. -/
def deleteRouteActor (user : User) : Int :=
  if user.role = "admin" then 0 else user.id

/-- The route's `try`/`catch` around the `softDeleteBooking` call: errors
whose message contains `'not found'` become HTTP 404 (the service's only
error message is `"Booking not found or already cancelled"`). -/
def runSoftDelete (store : List Booking) (bookingId userId now : Int) :
    DeleteResult × List Booking :=
  match softDeleteBooking store bookingId userId now with
  | .ok (b, store') => (.ok200 b, store')
  | .error msg =>
      if msg = "Booking not found or already cancelled" then (.notFound404, store)
      else (.serverError500, store)

/-- Route `DELETE /bookings/:id`: non-admins must own an existing active booking
whose start lies strictly in the future; admins skip all three checks.  Both
paths then call `softDeleteBooking` with the `deleteRouteActor` sentinel. -/
def deleteBookingRoute (store : List Booking) (bookingId : Int) (user : User) (now : Int) :
    DeleteResult × List Booking :=
  if user.role = "admin" then
    runSoftDelete store bookingId (deleteRouteActor user) now
  else
    match getBookingById store bookingId with
    | none => (.notFound404, store)
    | some booking =>
        if booking.userId ≠ user.id then (.forbidden403, store)
        else if booking.startTime ≤ now then
          (.badRequest400 "Cannot cancel past or ongoing bookings", store)
        else runSoftDelete store bookingId (deleteRouteActor user) now

/-- The booked-rooms window test of `GET /rooms/available`: `startTime`
within `[s, e]`, or `endTime` within `[s, e]`, or the booking covering
`[s, e]`.  Note: no `deletedAt` condition appears in this query. -/
def availableWindow (s e : Int) (bk : Booking) : Prop :=
  (s ≤ bk.startTime ∧ bk.startTime ≤ e) ∨
  (s ≤ bk.endTime ∧ bk.endTime ≤ e) ∨
  (bk.startTime ≤ s ∧ e ≤ bk.endTime)

instance (s e : Int) (bk : Booking) : Decidable (availableWindow s e bk) := by
  unfold availableWindow; infer_instance

/-- Route `GET /rooms/available`: collect the room ids of bookings meeting the
window test and keep the rooms whose id is not among them. -/
def availableRooms (rooms : List Room) (bookings : List Booking) (s e : Int) : List Room :=
  let bookedRoomIds := (bookings.filter fun bk => decide (availableWindow s e bk)).map (·.roomId)
  rooms.filter fun r => !(bookedRoomIds.contains r.id)

/-! ### Shared lemmas -/

/-- For genuine intervals (`start < end` on both sides) the code's
three-clause disjunction coincides with the spec's half-open predicate. -/
theorem sqlConflict_iff_overlapSpec {aS aE bS bE : Int}
    (ha : aS < aE) (hb : bS < bE) :
    sqlConflict aS aE bS bE ↔ overlapSpec aS aE bS bE := by
  unfold sqlConflict overlapSpec
  omega

/-- The raw overlap query returns a row exactly when some active booking of
the room satisfies the three-clause disjunction against the candidate. -/
theorem overlappingBookings_length_pos (store : List Booking) (roomId s e : Int) :
    0 < (overlappingBookings store roomId s e).length ↔
      ∃ b ∈ store, b.roomId = roomId ∧ b.deletedAt = none ∧
        sqlConflict b.startTime b.endTime s e := by
  unfold overlappingBookings
  rw [List.length_pos_iff_exists_mem]
  constructor
  · rintro ⟨b, hb⟩
    rw [List.mem_filter, decide_eq_true_eq] at hb
    exact ⟨b, hb.1, hb.2⟩
  · rintro ⟨b, hmem, hprop⟩
    exact ⟨b, List.mem_filter.2 ⟨hmem, by rw [decide_eq_true_eq]; exact hprop⟩⟩

/-- Dropping the cancelled bookings first does not change a filter whose
predicate already demands `deletedAt = none`. -/
theorem filter_active_filter_eq (store : List Booking) (p : Booking → Bool)
    (hp : ∀ b, p b = true → b.deletedAt = none) :
    (store.filter fun b => b.deletedAt == none).filter p = store.filter p := by
  rw [List.filter_filter]
  apply List.filter_congr
  intro b _
  cases hpb : p b
  · simp
  · simp [hp b hpb]

/-! ### Claims -/

/-- Claim C1: The conflict predicate used by reservation creation and the
availability check implements half-open interval semantics: for intervals
with `a.start < a.end` and `b.start < b.end`, the three-clause disjunction
holds iff `a.start < b.end ∧ b.start < a.end`; back-to-back intervals do not
conflict, while identical and nested intervals do. -/
theorem conflict_predicate_halfopen (aS aE bS bE : Int)
    (ha : aS < aE) (hb : bS < bE) :
    (sqlConflict aS aE bS bE ↔ aS < bE ∧ bS < aE) ∧
    (aE = bS → ¬ sqlConflict aS aE bS bE) ∧
    (bE = aS → ¬ sqlConflict aS aE bS bE) ∧
    (aS = bS ∧ aE = bE → sqlConflict aS aE bS bE) ∧
    (bS ≤ aS ∧ aE ≤ bE → sqlConflict aS aE bS bE) ∧
    (aS ≤ bS ∧ bE ≤ aE → sqlConflict aS aE bS bE) := by
  unfold sqlConflict
  omega

/-- Witness for C1 at concrete intervals `[0,10)` and `[5,15)`. -/
theorem conflict_predicate_halfopen_witness :
    (sqlConflict 0 10 5 15 ↔ (0 : Int) < 15 ∧ (5 : Int) < 10) ∧
    ((10 : Int) = 5 → ¬ sqlConflict 0 10 5 15) ∧
    ((15 : Int) = 0 → ¬ sqlConflict 0 10 5 15) ∧
    ((0 : Int) = 5 ∧ (10 : Int) = 15 → sqlConflict 0 10 5 15) ∧
    ((5 : Int) ≤ 0 ∧ (10 : Int) ≤ 15 → sqlConflict 0 10 5 15) ∧
    ((0 : Int) ≤ 5 ∧ (15 : Int) ≤ 10 → sqlConflict 0 10 5 15) :=
  conflict_predicate_halfopen 0 10 5 15 (by decide) (by decide)

/-- Claim C2: If some active booking of the room conflicts (half-open) with the
candidate interval, `createBookingSafe` throws the overlap error — surfaced by
`POST /bookings` as HTTP 409 — and the store is unchanged; otherwise it
appends exactly one new active booking carrying the given owner, room and
interval, and nothing else changes. -/
theorem createBookingSafe_conflict_or_insert
    (store : List Booking) (newId userId roomId s e : Int) (d : Option String)
    (hse : s < e) (hstore : ∀ b ∈ store, b.startTime < b.endTime) :
    ((∃ b ∈ store, b.roomId = roomId ∧ b.deletedAt = none ∧
        b.startTime < e ∧ s < b.endTime) →
      createBookingSafe store newId userId roomId s e d =
        .error "Room is already booked for this time period" ∧
      ∀ u : User, roomId ≠ 0 → s ≠ 0 → e ≠ 0 →
        postBookingRoute store newId (some roomId) none (some s) (some e) d u =
          (.conflict409 "Room is already booked for this time period", store)) ∧
    ((∀ b ∈ store, b.roomId = roomId → b.deletedAt = none →
        ¬(b.startTime < e ∧ s < b.endTime)) →
      createBookingSafe store newId userId roomId s e d =
        .ok (⟨newId, userId, roomId, s, e, none, d⟩,
             store ++ [⟨newId, userId, roomId, s, e, none, d⟩])) := by
  have key : 0 < (overlappingBookings store roomId s e).length ↔
      ∃ b ∈ store, b.roomId = roomId ∧ b.deletedAt = none ∧
        b.startTime < e ∧ s < b.endTime := by
    rw [overlappingBookings_length_pos]
    constructor
    · rintro ⟨b, hmem, h1, h2, h3⟩
      have := (sqlConflict_iff_overlapSpec (hstore b hmem) hse).1 h3
      exact ⟨b, hmem, h1, h2, this.1, this.2⟩
    · rintro ⟨b, hmem, h1, h2, h3, h4⟩
      exact ⟨b, hmem, h1, h2,
        (sqlConflict_iff_overlapSpec (hstore b hmem) hse).2 ⟨h3, h4⟩⟩
  constructor
  · intro hconf
    have hsvc : createBookingSafe store newId userId roomId s e d =
        .error "Room is already booked for this time period" := by
      unfold createBookingSafe
      rw [if_pos (key.2 hconf)]
    refine ⟨hsvc, ?_⟩
    intro u hr hs he
    have hsvc' : createBookingSafe store newId u.id roomId s e d =
        .error "Room is already booked for this time period" := by
      unfold createBookingSafe
      rw [if_pos (key.2 hconf)]
    simp [postBookingRoute, truthy, bne_iff_ne, hr, hs, he, hsvc']
  · intro hnoconf
    have hlen : ¬ 0 < (overlappingBookings store roomId s e).length := by
      rw [key]
      rintro ⟨b, hmem, h1, h2, h3, h4⟩
      exact hnoconf b hmem h1 h2 ⟨h3, h4⟩
    unfold createBookingSafe
    rw [if_neg hlen]

/-- Witness for C2: in the empty store the booking is inserted. -/
theorem createBookingSafe_conflict_or_insert_witness :
    createBookingSafe [] 1 2 3 10 20 none =
      .ok (⟨1, 2, 3, 10, 20, none, none⟩, [⟨1, 2, 3, 10, 20, none, none⟩]) :=
  (createBookingSafe_conflict_or_insert [] 1 2 3 10 20 none (by decide)
    (by simp)).2 (by simp)

/-- Claim C3, amended: Cancelled bookings are invisible to the service-layer
conflict computations — the creation-time overlap query and
`checkRoomAvailability` give the same answer when all cancelled bookings are
removed — but not to the available-rooms listing, whose booked-rooms query
lacks the `deletedAt` filter. -/
theorem cancelled_excluded_from_service_checks :
    (∀ (store : List Booking) (roomId s e : Int),
      overlappingBookings (store.filter fun b => b.deletedAt == none) roomId s e =
        overlappingBookings store roomId s e) ∧
    (∀ (store : List Booking) (roomId s e : Int) (excl : Option Int),
      checkRoomAvailability (store.filter fun b => b.deletedAt == none) roomId s e excl =
        checkRoomAvailability store roomId s e excl) ∧
    ¬ (∀ (rooms : List Room) (store : List Booking) (s e : Int),
        availableRooms rooms (store.filter fun b => b.deletedAt == none) s e =
          availableRooms rooms store s e) := by
  refine ⟨?_, ?_, ?_⟩
  · intro store roomId s e
    unfold overlappingBookings
    apply filter_active_filter_eq
    intro b hb
    rw [decide_eq_true_eq] at hb
    exact hb.2.1
  · intro store roomId s e excl
    simp only [checkRoomAvailability]
    rw [filter_active_filter_eq]
    intro b hb
    rw [Bool.and_eq_true, decide_eq_true_eq] at hb
    exact hb.1.2.1
  · intro h
    have := h [⟨1, "A", 4⟩] [⟨1, 1, 1, 10, 20, some 5, none⟩] 10 20
    exact absurd this (by decide)

/-- Witness for the amended C3: removing a cancelled booking changes neither
the creation-time overlap query nor the availability check. -/
theorem cancelled_excluded_from_service_checks_witness :
    overlappingBookings
        ([⟨1, 1, 1, 10, 20, some 5, none⟩].filter fun b => b.deletedAt == none) 1 10 20 =
      overlappingBookings [⟨1, 1, 1, 10, 20, some 5, none⟩] 1 10 20 ∧
    checkRoomAvailability
        ([⟨1, 1, 1, 10, 20, some 5, none⟩].filter fun b => b.deletedAt == none) 1 10 20 none =
      checkRoomAvailability [⟨1, 1, 1, 10, 20, some 5, none⟩] 1 10 20 none :=
  ⟨cancelled_excluded_from_service_checks.1 [⟨1, 1, 1, 10, 20, some 5, none⟩] 1 10 20,
   cancelled_excluded_from_service_checks.2.1 [⟨1, 1, 1, 10, 20, some 5, none⟩] 1 10 20 none⟩

/-- Counterexample for C3 as stated: one cancelled booking on room 1 changes
the `GET /rooms/available` answer, so cancelled reservations are not excluded
from that conflict computation. -/
theorem cancelled_affects_available_rooms_cex :
    availableRooms [⟨1, "A", 4⟩]
        ([⟨1, 1, 1, 10, 20, some 5, none⟩].filter fun b => b.deletedAt == none) 10 20 ≠
      availableRooms [⟨1, "A", 4⟩] [⟨1, 1, 1, 10, 20, some 5, none⟩] 10 20 := by
  decide

/-- Counterexample for C4 as stated: a request with `start = end = 50` is not
rejected with a validation error — the route inserts the degenerate
reservation. -/
theorem create_no_interval_validation_cex :
    postBookingRoute [] 1 (some 2) none (some 50) (some 50) none ⟨3, "user"⟩ =
      (.created ⟨1, 3, 2, 50, 50, none, none⟩, [⟨1, 3, 2, 50, 50, none, none⟩]) := by
  decide

/-- Claim C4, amended: Neither the route nor `createBookingSafe` validates the
interval order: with all fields present and `start ≥ end`, the request is
never answered with the 400 validation response, and when no active booking
of the room meets the overlap clauses the degenerate reservation is
inserted. -/
theorem create_degenerate_interval_accepted
    (store : List Booking) (newId roomId s e : Int) (d : Option String) (u : User)
    (hr : roomId ≠ 0) (hs : s ≠ 0) (he : e ≠ 0) (_hse : e ≤ s) :
    (∀ m, (postBookingRoute store newId (some roomId) none (some s) (some e) d u).1 ≠
      CreateResult.badRequest m) ∧
    ((∀ b ∈ store, ¬(b.roomId = roomId ∧ b.deletedAt = none ∧
        sqlConflict b.startTime b.endTime s e)) →
      postBookingRoute store newId (some roomId) none (some s) (some e) d u =
        (.created ⟨newId, u.id, roomId, s, e, none, d⟩,
         store ++ [⟨newId, u.id, roomId, s, e, none, d⟩])) := by
  have route_eq : postBookingRoute store newId (some roomId) none (some s) (some e) d u =
      match createBookingSafe store newId u.id roomId s e d with
      | .ok (b, store') => (.created b, store')
      | .error msg =>
          if msg = "Room is already booked for this time period" then
            (.conflict409 "Room is already booked for this time period", store)
          else (.serverError, store) := by
    simp [postBookingRoute, truthy, bne_iff_ne, hr, hs, he]
  constructor
  · intro m
    rw [route_eq]
    cases hres : createBookingSafe store newId u.id roomId s e d with
    | ok pr => simp
    | error msg =>
        by_cases hm : msg = "Room is already booked for this time period" <;> simp [hm]
  · intro hnoconf
    have hlen : ¬ 0 < (overlappingBookings store roomId s e).length := by
      rw [overlappingBookings_length_pos]
      rintro ⟨b, hmem, hprop⟩
      exact hnoconf b hmem hprop
    have hsvc : createBookingSafe store newId u.id roomId s e d =
        .ok (⟨newId, u.id, roomId, s, e, none, d⟩,
             store ++ [⟨newId, u.id, roomId, s, e, none, d⟩]) := by
      unfold createBookingSafe
      rw [if_neg hlen]
    rw [route_eq, hsvc]

/-- Witness for the amended C4: the empty store accepts `start = end = 100`. -/
theorem create_degenerate_interval_accepted_witness :
    postBookingRoute [] 1 (some 1) none (some 100) (some 100) none ⟨1, "user"⟩ =
      (.created ⟨1, 1, 1, 100, 100, none, none⟩, [⟨1, 1, 1, 100, 100, none, none⟩]) :=
  (create_degenerate_interval_accepted [] 1 1 100 100 none ⟨1, "user"⟩
    (by decide) (by decide) (by decide) (by decide)).2 (by simp)

/-- Under unique ids, the active-row lookup by id finds exactly the active
booking `r`. -/
theorem find_active_id (store : List Booking) (r : Booking)
    (hmem : r ∈ store) (hactive : r.deletedAt = none)
    (huniq : ∀ b ∈ store, b.id = r.id → b = r) :
    store.find? (fun b => decide (b.id = r.id ∧ b.deletedAt = none)) = some r := by
  have hsome : (store.find? fun b => decide (b.id = r.id ∧ b.deletedAt = none)).isSome := by
    rw [List.find?_isSome]
    exact ⟨r, hmem, by simp [hactive]⟩
  obtain ⟨b, hb⟩ := Option.isSome_iff_exists.1 hsome
  have hpb := List.find?_some hb
  rw [decide_eq_true_eq] at hpb
  have hmemb := List.mem_of_find?_eq_some hb
  rw [hb, huniq b hmemb hpb.1]

/-- Under unique ids, the owner-scoped active lookup by id also finds `r`. -/
theorem find_active_id_owner (store : List Booking) (r : Booking)
    (hmem : r ∈ store) (hactive : r.deletedAt = none)
    (huniq : ∀ b ∈ store, b.id = r.id → b = r) :
    store.find? (fun b => decide (b.id = r.id ∧ b.userId = r.userId ∧ b.deletedAt = none)) =
      some r := by
  have hsome : (store.find? fun b =>
      decide (b.id = r.id ∧ b.userId = r.userId ∧ b.deletedAt = none)).isSome := by
    rw [List.find?_isSome]
    exact ⟨r, hmem, by simp [hactive]⟩
  obtain ⟨b, hb⟩ := Option.isSome_iff_exists.1 hsome
  have hpb := List.find?_some hb
  rw [decide_eq_true_eq] at hpb
  have hmemb := List.mem_of_find?_eq_some hb
  rw [hb, huniq b hmemb hpb.1]

/-- Claim C5: For an active booking whose start is at or before `now`, the
cancel route refuses the non-elevated owner with the invalid-state 400
response and leaves the store unchanged, while an admin caller succeeds and
the booking's `deletedAt` is set. -/
theorem temporal_cancellation_rule
    (store : List Booking) (r : Booking) (now : Int)
    (hmem : r ∈ store) (hactive : r.deletedAt = none)
    (huniq : ∀ b ∈ store, b.id = r.id → b = r)
    (hpast : r.startTime ≤ now) :
    (∀ role, role ≠ "admin" →
      deleteBookingRoute store r.id ⟨r.userId, role⟩ now =
        (.badRequest400 "Cannot cancel past or ongoing bookings", store)) ∧
    (∀ uid : Int, deleteBookingRoute store r.id ⟨uid, "admin"⟩ now =
      (.ok200 { r with deletedAt := some now },
       store.map fun b => if b.id = r.id then { b with deletedAt := some now } else b)) := by
  constructor
  · intro role hrole
    have hbyid : getBookingById store r.id = some r :=
      find_active_id store r hmem hactive huniq
    unfold deleteBookingRoute
    rw [if_neg (by simpa using hrole), hbyid]
    simp [hpast]
  · intro uid
    have harg : deleteRouteActor ⟨uid, "admin"⟩ = 0 := by simp [deleteRouteActor]
    unfold deleteBookingRoute
    rw [if_pos rfl, harg]
    unfold runSoftDelete softDeleteBooking
    rw [if_pos rfl, find_active_id store r hmem hactive huniq]

/-- Witness for C5 on a one-element store with `now` inside the interval. -/
theorem temporal_cancellation_rule_witness :
    deleteBookingRoute [⟨1, 2, 3, 10, 20, none, none⟩] 1 ⟨2, "user"⟩ 15 =
      (.badRequest400 "Cannot cancel past or ongoing bookings",
       [⟨1, 2, 3, 10, 20, none, none⟩]) ∧
    deleteBookingRoute [⟨1, 2, 3, 10, 20, none, none⟩] 1 ⟨7, "admin"⟩ 15 =
      (.ok200 ⟨1, 2, 3, 10, 20, some 15, none⟩, [⟨1, 2, 3, 10, 20, some 15, none⟩]) := by
  have h := temporal_cancellation_rule [⟨1, 2, 3, 10, 20, none, none⟩]
    ⟨1, 2, 3, 10, 20, none, none⟩ 15 (by simp) rfl (by decide) (by decide)
  exact ⟨h.1 "user" (by decide), by simpa using h.2 7⟩

/-- When no active booking carries the requested id, the cancel route answers
404 for every caller and leaves the store untouched. -/
theorem deleteRoute_notFound_of_gone (store : List Booking) (bookingId : Int)
    (hgone : ∀ b ∈ store, b.id = bookingId → b.deletedAt ≠ none)
    (u : User) (now : Int) :
    deleteBookingRoute store bookingId u now = (.notFound404, store) := by
  have hfind : store.find? (fun b => decide (b.id = bookingId ∧ b.deletedAt = none)) =
      none := by
    rw [List.find?_eq_none]
    intro b hb
    simp only [decide_eq_true_eq, not_and]
    intro h1 h2
    exact hgone b hb h1 h2
  have hfind2 : ∀ uid : Int, store.find?
      (fun b => decide (b.id = bookingId ∧ b.userId = uid ∧ b.deletedAt = none)) = none := by
    intro uid
    rw [List.find?_eq_none]
    intro b hb
    simp only [decide_eq_true_eq, not_and]
    intro h1 _ h3
    exact hgone b hb h1 h3
  unfold deleteBookingRoute
  by_cases hrole : u.role = "admin"
  · rw [if_pos hrole]
    unfold runSoftDelete softDeleteBooking
    by_cases hact : deleteRouteActor u = 0
    · rw [hact, if_pos rfl, hfind]
      simp
    · rw [if_neg hact, hfind2]
      simp
  · rw [if_neg hrole]
    unfold getBookingById
    rw [hfind]

/-- Claim C6: Cancelling a booking that does not exist or is already cancelled
answers 404 — never success — with the store unchanged; in particular a
second cancellation of the same booking answers 404. -/
theorem cancel_missing_or_cancelled_not_found :
    (∀ (store : List Booking) (bookingId : Int),
      (∀ b ∈ store, b.id = bookingId → b.deletedAt ≠ none) →
      ∀ (u : User) (now : Int),
        deleteBookingRoute store bookingId u now = (.notFound404, store)) ∧
    (∀ (store : List Booking) (r : Booking) (now : Int),
      r ∈ store → r.deletedAt = none → (∀ b ∈ store, b.id = r.id → b = r) →
      ∀ (u : User) (now' : Int),
        deleteBookingRoute ((deleteBookingRoute store r.id ⟨0, "admin"⟩ now).2) r.id u now' =
          (.notFound404, (deleteBookingRoute store r.id ⟨0, "admin"⟩ now).2)) := by
  constructor
  · exact deleteRoute_notFound_of_gone
  · intro store r now hmem hactive huniq u now'
    have harg : deleteRouteActor ⟨0, "admin"⟩ = 0 := by simp [deleteRouteActor]
    have h1 : deleteBookingRoute store r.id ⟨0, "admin"⟩ now =
        (.ok200 { r with deletedAt := some now },
         store.map fun b => if b.id = r.id then { b with deletedAt := some now } else b) := by
      unfold deleteBookingRoute
      rw [if_pos rfl, harg]
      unfold runSoftDelete softDeleteBooking
      rw [if_pos rfl, find_active_id store r hmem hactive huniq]
    rw [h1]
    apply deleteRoute_notFound_of_gone
    intro b hb hid
    obtain ⟨a, hamem, hae⟩ := List.mem_map.1 hb
    by_cases ha : a.id = r.id
    · rw [← hae]
      simp [ha]
    · rw [← hae] at hid
      rw [if_neg ha] at hid
      exact absurd hid ha

/-- Witness for C6: cancelling an already-cancelled booking answers 404. -/
theorem cancel_missing_or_cancelled_not_found_witness :
    deleteBookingRoute [⟨1, 2, 3, 10, 20, some 15, none⟩] 1 ⟨7, "admin"⟩ 16 =
      (.notFound404, [⟨1, 2, 3, 10, 20, some 15, none⟩]) :=
  cancel_missing_or_cancelled_not_found.1 _ 1 (by decide) ⟨7, "admin"⟩ 16

/-- Claim C7: When `createBookingSafe` succeeds with reservation `X`, an
immediate `checkRoomAvailability` on the same room and interval answers
`false`, and answers `true` when `X.id` is excluded. -/
theorem create_then_availability_roundtrip
    (store : List Booking) (newId userId roomId s e : Int) (d : Option String)
    (X : Booking) (store' : List Booking)
    (hok : createBookingSafe store newId userId roomId s e d = .ok (X, store'))
    (hid : newId ≠ 0) :
    checkRoomAvailability store' roomId s e none = false ∧
    checkRoomAvailability store' roomId s e (some X.id) = true := by
  unfold createBookingSafe at hok
  by_cases hlen : 0 < (overlappingBookings store roomId s e).length
  · rw [if_pos hlen] at hok
    exact absurd hok (by simp)
  · rw [if_neg hlen] at hok
    have hno : ∀ b ∈ store, ¬(b.roomId = roomId ∧ b.deletedAt = none ∧
        sqlConflict b.startTime b.endTime s e) := by
      intro b hb hcontra
      exact hlen ((overlappingBookings_length_pos store roomId s e).2 ⟨b, hb, hcontra⟩)
    have hX : (⟨newId, userId, roomId, s, e, none, d⟩ : Booking) = X ∧
        store ++ [⟨newId, userId, roomId, s, e, none, d⟩] = store' := by
      simpa [Prod.ext_iff] using hok
    obtain ⟨hXeq, hstore'⟩ := hX
    subst hstore'
    subst hXeq
    constructor
    · unfold checkRoomAvailability
      rw [List.filter_append]
      have h1 : store.filter (fun b =>
          decide (b.roomId = roomId ∧ b.deletedAt = none ∧
            sqlConflict b.startTime b.endTime s e) && excludeFilter none b) = [] := by
        rw [List.filter_eq_nil_iff]
        intro b hb
        have := hno b hb
        simp [this]
      rw [h1]
      simp [excludeFilter, sqlConflict]
    · unfold checkRoomAvailability
      rw [List.filter_append]
      have h1 : store.filter (fun b =>
          decide (b.roomId = roomId ∧ b.deletedAt = none ∧
            sqlConflict b.startTime b.endTime s e) &&
            excludeFilter (some (⟨newId, userId, roomId, s, e, none, d⟩ : Booking).id) b) =
          [] := by
        rw [List.filter_eq_nil_iff]
        intro b hb
        have := hno b hb
        simp [this]
      rw [h1]
      simp [excludeFilter, hid]

/-- Witness for C7: one successful creation in the empty store. -/
theorem create_then_availability_roundtrip_witness :
    checkRoomAvailability [⟨1, 2, 3, 10, 20, none, none⟩] 3 10 20 none = false ∧
    checkRoomAvailability [⟨1, 2, 3, 10, 20, none, none⟩] 3 10 20 (some 1) = true :=
  create_then_availability_roundtrip [] 1 2 3 10 20 none
    ⟨1, 2, 3, 10, 20, none, none⟩ [⟨1, 2, 3, 10, 20, none, none⟩] rfl (by decide)

/-- Claim C8: `GET /bookings` returns exactly the active bookings — all of them
for an admin, only the caller's own otherwise — ordered by `startTime`
ascending.  (`user.id ≠ 0` reflects autoincremented user ids; `0` would
disable the Prisma owner filter.) -/
theorem list_active_bookings_spec
    (store : List Booking) (user : User)
    (hid : user.role ≠ "admin" → user.id ≠ 0) :
    (getBookingsRoute store user).Perm
      (store.filter fun b =>
        decide (b.deletedAt = none ∧ (user.role = "admin" ∨ b.userId = user.id))) ∧
    (getBookingsRoute store user).Pairwise (fun a b => a.startTime ≤ b.startTime) := by
  have hsorted : ∀ l : List Booking,
      (l.mergeSort fun a b => decide (a.startTime ≤ b.startTime)).Pairwise
        (fun a b => a.startTime ≤ b.startTime) := by
    intro l
    have hpair := @List.sorted_mergeSort Booking
      (fun a b => decide (a.startTime ≤ b.startTime))
      (by
        intro a b c hab hbc
        rw [decide_eq_true_eq] at *
        omega)
      (by
        intro a b
        rcases Int.le_total a.startTime b.startTime with h | h <;> simp [h]) l
    exact hpair.imp (by intro a b h; simpa using h)
  constructor
  · unfold getBookingsRoute getActiveBookings
    by_cases hrole : user.role = "admin"
    · rw [if_pos hrole]
      have heq : store.filter (activeFilter none) = store.filter fun b =>
          decide (b.deletedAt = none ∧ (user.role = "admin" ∨ b.userId = user.id)) := by
        apply List.filter_congr
        intro b _
        by_cases hd : b.deletedAt = none <;> simp [activeFilter, hrole, hd]
      exact (List.mergeSort_perm _ _).trans (heq ▸ List.Perm.refl _)
    · rw [if_neg hrole]
      have heq : store.filter (activeFilter (some user.id)) = store.filter fun b =>
          decide (b.deletedAt = none ∧ (user.role = "admin" ∨ b.userId = user.id)) := by
        apply List.filter_congr
        intro b _
        by_cases hd : b.deletedAt = none <;> by_cases hu : b.userId = user.id <;>
          simp [activeFilter, hrole, hd, hu, hid hrole]
      exact (List.mergeSort_perm _ _).trans (heq ▸ List.Perm.refl _)
  · unfold getBookingsRoute getActiveBookings
    by_cases hrole : user.role = "admin"
    · rw [if_pos hrole]
      exact hsorted _
    · rw [if_neg hrole]
      exact hsorted _

/-- Witness for C8 at a three-booking store (one cancelled) and an admin. -/
theorem list_active_bookings_spec_witness :
    (getBookingsRoute [⟨1, 2, 3, 30, 40, none, none⟩, ⟨2, 5, 3, 10, 20, none, none⟩,
        ⟨3, 2, 3, 0, 5, some 1, none⟩] ⟨9, "admin"⟩).Perm
      ([⟨1, 2, 3, 30, 40, none, none⟩, ⟨2, 5, 3, 10, 20, none, none⟩,
        ⟨3, 2, 3, 0, 5, some 1, none⟩].filter fun b =>
          decide (b.deletedAt = none ∧ (("admin" : String) = "admin" ∨ b.userId = 9))) ∧
    (getBookingsRoute [⟨1, 2, 3, 30, 40, none, none⟩, ⟨2, 5, 3, 10, 20, none, none⟩,
        ⟨3, 2, 3, 0, 5, some 1, none⟩] ⟨9, "admin"⟩).Pairwise
      (fun a b => a.startTime ≤ b.startTime) :=
  list_active_bookings_spec
    [⟨1, 2, 3, 30, 40, none, none⟩, ⟨2, 5, 3, 10, 20, none, none⟩,
     ⟨3, 2, 3, 0, 5, some 1, none⟩] ⟨9, "admin"⟩ (fun h => absurd rfl h)

/-- Claim C9: `softDeleteBooking` treats actor `0` as the elevated sentinel:
on an active booking `r` it succeeds exactly when the actor is `0` or `r`'s
owner, and the delete route hands the service `0` exactly when the caller's
role is `admin`. -/
theorem soft_delete_actor_sentinel
    (store : List Booking) (r : Booking) (u now : Int)
    (hmem : r ∈ store) (hactive : r.deletedAt = none)
    (huniq : ∀ b ∈ store, b.id = r.id → b = r) :
    ((softDeleteBooking store r.id u now).isOk ↔ (u = 0 ∨ u = r.userId)) ∧
    (∀ user : User, deleteRouteActor user = if user.role = "admin" then 0 else user.id) := by
  constructor
  · unfold softDeleteBooking
    by_cases hu : u = 0
    · subst hu
      rw [if_pos rfl, find_active_id store r hmem hactive huniq]
      simp [Except.isOk, Except.toBool]
    · rw [if_neg hu]
      by_cases hown : u = r.userId
      · subst hown
        rw [find_active_id_owner store r hmem hactive huniq]
        simp [Except.isOk, Except.toBool]
      · have hfind : store.find?
            (fun b => decide (b.id = r.id ∧ b.userId = u ∧ b.deletedAt = none)) = none := by
          rw [List.find?_eq_none]
          intro b hb
          simp only [decide_eq_true_eq, not_and]
          intro h1 h2 _
          apply hown
          rw [← h2, huniq b hb h1]
        rw [hfind]
        simp [Except.isOk, Except.toBool, hu, hown]
  · intro user
    rfl

/-- Witness for C9: the owner (actor `2`) may cancel their active booking. -/
theorem soft_delete_actor_sentinel_witness :
    ((softDeleteBooking [⟨1, 2, 3, 10, 20, none, none⟩] 1 2 99).isOk ↔
      ((2 : Int) = 0 ∨ (2 : Int) = 2)) ∧
    (∀ user : User, deleteRouteActor user = if user.role = "admin" then 0 else user.id) :=
  soft_delete_actor_sentinel [⟨1, 2, 3, 10, 20, none, none⟩]
    ⟨1, 2, 3, 10, 20, none, none⟩ 2 99 (by simp) rfl (by decide)

/-- Claim C10: `checkRoomAvailability` silently drops the exclusion when
`excludeBookingId = 0`: the call with `some 0` coincides with the call with
no exclusion, and an active conflicting booking whose id is `0` is still
counted. -/
theorem exclude_zero_ignored :
    (∀ (store : List Booking) (roomId s e : Int),
      checkRoomAvailability store roomId s e (some 0) =
        checkRoomAvailability store roomId s e none) ∧
    (∀ (store : List Booking) (roomId s e : Int) (b : Booking),
      b ∈ store → b.roomId = roomId → b.deletedAt = none →
      sqlConflict b.startTime b.endTime s e →
      checkRoomAvailability store roomId s e (some 0) = false) := by
  constructor
  · intro store roomId s e
    simp only [checkRoomAvailability]
    have heq : (fun b : Booking =>
        decide (b.roomId = roomId ∧ b.deletedAt = none ∧
          sqlConflict b.startTime b.endTime s e) && excludeFilter (some 0) b) =
        (fun b : Booking =>
          decide (b.roomId = roomId ∧ b.deletedAt = none ∧
            sqlConflict b.startTime b.endTime s e) && excludeFilter none b) := by
      funext b
      simp [excludeFilter]
    rw [heq]
  · intro store roomId s e b hb h1 h2 h3
    simp only [checkRoomAvailability]
    have hmemf : b ∈ store.filter (fun b =>
        decide (b.roomId = roomId ∧ b.deletedAt = none ∧
          sqlConflict b.startTime b.endTime s e) && excludeFilter (some 0) b) :=
      List.mem_filter.2 ⟨hb, by simp [excludeFilter, h1, h2, h3]⟩
    have hpos := List.length_pos_iff_exists_mem.2 ⟨b, hmemf⟩
    have hne : (store.filter (fun b =>
        decide (b.roomId = roomId ∧ b.deletedAt = none ∧
          sqlConflict b.startTime b.endTime s e) && excludeFilter (some 0) b)).length ≠ 0 := by
      omega
    rw [beq_eq_false_iff_ne]
    exact hne

/-- Witness for C10: an active conflicting booking with id `0` keeps the room
unavailable even when `excludeBookingId = 0` is passed. -/
theorem exclude_zero_ignored_witness :
    checkRoomAvailability [⟨0, 1, 1, 10, 20, none, none⟩] 1 10 20 (some 0) = false :=
  exclude_zero_ignored.2 [⟨0, 1, 1, 10, 20, none, none⟩] 1 10 20
    ⟨0, 1, 1, 10, 20, none, none⟩ (by simp) rfl rfl (by decide)

end MeetingBooking
